import Mathlib

/-!
Shallow embedding of `src/server.py` (retell-mistral-server).

The server relays WebSocket messages between the Retell voice platform and
a hosted Mistral chat-completion endpoint.  The embedding models:

- JSON transcript entries as role/content records (the spec's data model);
- a parsed inbound payload as a record of optional fields, mirroring the
  Python `dict.get(key, default)` accesses;
- a received text frame as `Option InboundEventData` (`none` when
  `json.loads` raises `JSONDecodeError`) together with a `fault` flag that
  abstracts a runtime exception raised inside the body of
  `handle_response_required`'s `try` block (the only `except` branch whose
  behaviour the spec describes);
- the external Mistral chat call as an oracle
  `ChatApi : List TranscriptEntry → Except Unit String`
  (`Except.error` abstracts any exception raised by the API call or by
  extracting `response.choices[0].message.content`);
- `websocket.send` as appending to an output trace: each handler returns
  the list of Outbound Response messages it sends, in order.

The per-call-id store `self.conversations` is carried as explicit server
state so that claims about it can be stated.
-/

/-- One transcript entry `{role, content}` as in the platform's wire
format and the spec's data model (section 3). -/
structure TranscriptEntry where
  role : String
  content : String
deriving DecidableEq, Repr

/-- The Outbound Response envelope built at the three `websocket.send`
sites of `server.py`. -/
structure OutboundResponse where
  response_type : String
  response_id : Int
  content : String
  content_complete : Bool
  end_call : Bool
deriving DecidableEq, Repr

/-- A successfully JSON-decoded inbound payload.  Each field is optional,
mirroring the `data.get(...)` accesses in `server.py`. -/
structure InboundEventData where
  interaction_type : Option String
  call_id : Option String
  response_id : Option Int
  transcript : Option (List TranscriptEntry)
deriving DecidableEq, Repr

/-- One received text frame.  `payload = none` models a frame that is not
valid JSON (`json.loads` raises); `fault = true` models a runtime
exception raised inside the `try` body of `handle_response_required`
before the success-path send completes. -/
structure Frame where
  payload : Option InboundEventData
  fault : Bool
deriving DecidableEq, Repr

/-- The external chat-completion call: given the message sequence, either
the top choice's text or a failure (any exception in the API round trip
or in reading `response.choices[0].message.content`). -/
def ChatApi : Type := List TranscriptEntry → Except Unit String

/-- Server state: the per-call-id conversation store
`self.conversations : Dict[str, List[Dict]]` from `__init__`. -/
structure ServerState where
  conversations : List (String × List TranscriptEntry)
deriving DecidableEq, Repr

/-- `__init__`: the store starts empty. -/
def initialState : ServerState := ⟨[]⟩

/-- The fixed system entry prepended by `prepare_conversation_context`. -/
def systemMessage : TranscriptEntry :=
  { role := "system"
    content := "You are a helpful AI assistant. Provide clear, concise, and helpful responses." }

/-- The body of the `for entry in transcript` loop of
`prepare_conversation_context`: re-emit the entry when its role is `user`
or `assistant`, skip it otherwise. -/
def transcriptEntryToMistral (entry : TranscriptEntry) : Option TranscriptEntry :=
  if entry.role = "user" then
    some { role := "user", content := entry.content }
  else if entry.role = "assistant" then
    some { role := "assistant", content := entry.content }
  else
    none

/-- `prepare_conversation_context(call_id, transcript)`: one fixed system
entry, then each transcript entry re-emitted when its role is `user` or
`assistant`, in order; other roles are skipped. -/
def prepare_conversation_context (call_id : String) (transcript : List TranscriptEntry) :
    List TranscriptEntry :=
  systemMessage :: transcript.filterMap transcriptEntryToMistral

/-- The apology returned by `call_mistral_model`'s `except` branch. -/
def mistralErrorFallback : String :=
  "I apologize, but I'm experiencing technical difficulties. Please try again."

/-- The message sequence actually submitted to the Mistral API: the guard
at the top of `call_mistral_model` appends the current user message when
it is non-empty (Python truthiness of the string) and either the history
is empty or its last entry's content differs. -/
def finalized_messages (conversation_history : List TranscriptEntry)
    (user_message : String) : List TranscriptEntry :=
  if user_message ≠ "" ∧
      (conversation_history = [] ∨
        conversation_history.getLast?.map TranscriptEntry.content ≠ some user_message) then
    conversation_history ++ [{ role := "user", content := user_message }]
  else
    conversation_history

/-- `call_mistral_model`: submit the finalized sequence; on any failure
return the fixed apology instead of propagating the exception. -/
def call_mistral_model (api : ChatApi) (conversation_history : List TranscriptEntry)
    (user_message : String) : String :=
  match api (finalized_messages conversation_history user_message) with
  | Except.ok content => content
  | Except.error _ => mistralErrorFallback

/-- The scan in `handle_response_required` (lines 80-87): the content of
the last entry with role `user`, the empty string when there is none. -/
def latest_user_message (transcript : List TranscriptEntry) : String :=
  match transcript.reverse.find? (fun entry => entry.role = "user") with
  | some entry => entry.content
  | none => ""

/-- Content of the error response sent by `handle_response_required`'s
`except` branch. -/
def handlingErrorFallback : String :=
  "I apologize, but I'm having trouble processing your request. Could you please try again?"

/-- `handle_response_required`: on the normal path, build the context,
call the model, send one response echoing the inbound `response_id`; when
a runtime exception interrupts the `try` body (`fault`), send one error
response with the fallback content and the same echoed `response_id`.
State is untouched (the method never writes `self.conversations`). -/
def handle_response_required (api : ChatApi) (fault : Bool) (st : ServerState)
    (data : InboundEventData) : List OutboundResponse × ServerState :=
  if fault then
    ([{ response_type := "response"
        response_id := data.response_id.getD 0
        content := handlingErrorFallback
        content_complete := true
        end_call := false }], st)
  else
    let call_id := data.call_id.getD "unknown"
    let transcript := data.transcript.getD []
    let user_message := latest_user_message transcript
    let conversation_history := prepare_conversation_context call_id transcript
    let response_content := call_mistral_model api conversation_history user_message
    ([{ response_type := "response"
        response_id := data.response_id.getD 0
        content := response_content
        content_complete := true
        end_call := false }], st)

/-- `handle_update_only`: logs and does nothing — no send, no state
change. -/
def handle_update_only (st : ServerState) (data : InboundEventData) :
    List OutboundResponse × ServerState :=
  ([], st)

/-- `process_message`: decode the frame; on `JSONDecodeError` log and
drop; otherwise dispatch on `interaction_type`; unknown types are logged
and ignored. -/
def process_message (api : ChatApi) (st : ServerState) (frame : Frame) :
    List OutboundResponse × ServerState :=
  match frame.payload with
  | none => ([], st)
  | some data =>
    if data.interaction_type = some "response_required" then
      handle_response_required api frame.fault st data
    else if data.interaction_type = some "update_only" then
      handle_update_only st data
    else
      ([], st)

/-- The greeting sent unconditionally when a connection is established. -/
def initial_message : OutboundResponse :=
  { response_type := "response"
    response_id := 0
    content := "Hello! I'm your AI assistant. How can I help you today?"
    content_complete := true
    end_call := false }

/-- The `async for message in websocket` loop of `handle_connection`:
process each received frame in order, threading the state and
concatenating the sent messages. -/
def run_frames (api : ChatApi) (st : ServerState) :
    List Frame → List OutboundResponse × ServerState
  | [] => ([], st)
  | frame :: rest =>
    let step := process_message api st frame
    let next := run_frames api step.2 rest
    (step.1 ++ next.1, next.2)

/-- `handle_connection`: send the initial greeting, then process the
received frames in order. -/
def handle_connection (api : ChatApi) (st : ServerState) (frames : List Frame) :
    List OutboundResponse × ServerState :=
  let result := run_frames api st frames
  (initial_message :: result.1, result.2)

/-- Spec section 4.2, restated word for word: the current user message is
found by scanning the transcript from the end and taking the first entry
with role `user`; the empty string when there is none.  Used to check the
source's `reversed(transcript)` loop against the spec's wording. -/
def firstUserContent : List TranscriptEntry → String
  | [] => ""
  | entry :: rest => if entry.role = "user" then entry.content else firstUserContent rest

/-- A completion API that always succeeds with a fixed reply (used to
instantiate theorems at concrete inputs). -/
def apiOk : ChatApi := fun _ => Except.ok "All good."

/-- A completion API that always fails (models the API call raising). -/
def apiFail : ChatApi := fun _ => Except.error ()

/-- A concrete well-formed `response_required` payload used to
instantiate theorems. -/
def exampleEvent : InboundEventData :=
  { interaction_type := some "response_required"
    call_id := some "call-1"
    response_id := some 7
    transcript := some [{ role := "user", content := "hi" }] }

/-! ### Helper lemmas -/

/-- Both branches of `handle_response_required` send exactly one message
with the fixed envelope fields and the echoed `response_id`. -/
theorem handle_response_required_shape (api : ChatApi) (fault : Bool) (st : ServerState)
    (data : InboundEventData) :
    ∃ c : String, handle_response_required api fault st data =
      ([{ response_type := "response", response_id := data.response_id.getD 0,
          content := c, content_complete := true, end_call := false }], st) := by
  cases fault
  · exact ⟨_, rfl⟩
  · exact ⟨_, rfl⟩

theorem process_message_state (api : ChatApi) (st : ServerState) (frame : Frame) :
    (process_message api st frame).2 = st := by
  obtain ⟨payload, fault⟩ := frame
  cases payload with
  | none => rfl
  | some data =>
    simp only [process_message]
    split
    · obtain ⟨c, hc⟩ := handle_response_required_shape api fault st data
      rw [hc]
    · split
      · rfl
      · rfl

theorem run_frames_state (api : ChatApi) (frames : List Frame) :
    ∀ st : ServerState, (run_frames api st frames).2 = st := by
  induction frames with
  | nil => intro st; rfl
  | cons f fs ih =>
    intro st
    simp only [run_frames]
    rw [ih, process_message_state]

theorem mem_run_frames (api : ChatApi) (frames : List Frame) (r : OutboundResponse) :
    ∀ st : ServerState, r ∈ (run_frames api st frames).1 →
      ∃ st2 frame, frame ∈ frames ∧ r ∈ (process_message api st2 frame).1 := by
  induction frames with
  | nil => intro st hr; simp [run_frames] at hr
  | cons f fs ih =>
    intro st hr
    simp only [run_frames, List.mem_append] at hr
    rcases hr with h | h
    · exact ⟨st, f, List.mem_cons_self f fs, h⟩
    · obtain ⟨st2, frame, hmem, hr2⟩ := ih _ h
      exact ⟨st2, frame, List.mem_cons_of_mem f hmem, hr2⟩

theorem process_message_fields (api : ChatApi) (st : ServerState) (frame : Frame)
    (r : OutboundResponse) (hr : r ∈ (process_message api st frame).1) :
    r.response_type = "response" ∧ r.content_complete = true ∧ r.end_call = false := by
  obtain ⟨payload, fault⟩ := frame
  cases payload with
  | none => simp [process_message] at hr
  | some data =>
    simp only [process_message] at hr
    split at hr
    · obtain ⟨c, hc⟩ := handle_response_required_shape api fault st data
      rw [hc] at hr
      simp at hr
      subst hr
      exact ⟨rfl, rfl, rfl⟩
    · split at hr
      · simp [handle_update_only] at hr
      · simp at hr

/-! ### Claim theorems -/

/-- C1: for every inbound event with interaction type `response_required`,
exactly one Outbound Response is sent for that event — both when the
response-generation flow succeeds and when an internal step fails, in
which case the fallback content string is substituted. -/
theorem response_required_sends_exactly_one (api : ChatApi) (st : ServerState)
    (frame : Frame) (data : InboundEventData) (hp : frame.payload = some data)
    (ht : data.interaction_type = some "response_required") :
    ((process_message api st frame).1).length = 1 ∧
      (frame.fault = true →
        ((process_message api st frame).1).map OutboundResponse.content =
          [handlingErrorFallback]) := by
  obtain ⟨payload, fault⟩ := frame
  simp only at hp
  subst hp
  simp only [process_message, ht, if_pos]
  cases fault
  · obtain ⟨c, hc⟩ := handle_response_required_shape api false st data
    rw [hc]
    exact ⟨rfl, fun h => by cases h⟩
  · exact ⟨rfl, fun _ => rfl⟩

theorem response_required_sends_exactly_one_w :
    ((process_message apiOk initialState ⟨some exampleEvent, true⟩).1).length = 1 ∧
      ((⟨some exampleEvent, true⟩ : Frame).fault = true →
        ((process_message apiOk initialState ⟨some exampleEvent, true⟩).1).map
            OutboundResponse.content = [handlingErrorFallback]) :=
  response_required_sends_exactly_one apiOk initialState ⟨some exampleEvent, true⟩
    exampleEvent rfl rfl

/-- C2: every Outbound Response a connection ever sends — the greeting and
every message produced while processing frames — has
`content_complete = true` and `end_call = false`. -/
theorem all_outbound_complete_not_endcall (api : ChatApi) (st : ServerState)
    (frames : List Frame) (r : OutboundResponse)
    (hr : r ∈ (handle_connection api st frames).1) :
    r.content_complete = true ∧ r.end_call = false := by
  simp only [handle_connection, List.mem_cons] at hr
  rcases hr with h | h
  · subst h; exact ⟨rfl, rfl⟩
  · obtain ⟨st2, frame, _, hr2⟩ := mem_run_frames api frames r st h
    exact (process_message_fields api st2 frame r hr2).2

theorem all_outbound_complete_not_endcall_w :
    initial_message.content_complete = true ∧ initial_message.end_call = false :=
  all_outbound_complete_not_endcall apiOk initialState [] initial_message
    (by simp [handle_connection, run_frames])

/-- C3: for every well-formed `response_required` event (its `response_id`
field is present), the response sent for it — normal or error-fallback —
echoes the inbound `response_id`. -/
theorem response_id_echoed (api : ChatApi) (fault : Bool) (st : ServerState)
    (data : InboundEventData) (rid : Int) (hwf : data.response_id = some rid)
    (r : OutboundResponse) (hr : r ∈ (handle_response_required api fault st data).1) :
    r.response_id = rid := by
  obtain ⟨c, hc⟩ := handle_response_required_shape api fault st data
  rw [hc] at hr
  simp at hr
  subst hr
  simp [hwf]

theorem response_id_echoed_w :
    ({ response_type := "response", response_id := (7 : Int),
       content := handlingErrorFallback, content_complete := true,
       end_call := false } : OutboundResponse).response_id = 7 :=
  response_id_echoed apiOk true initialState exampleEvent 7 rfl _ (by decide)

/-- C9: no operation mutates the per-call-id conversations store (from the
empty initial state it stays empty across any connection trace), the built
conversation context does not depend on the call id, and handling an
`update_only` event sends nothing and changes no state. -/
theorem store_never_mutated (api : ChatApi) (st : ServerState) (frames : List Frame)
    (cid cid2 : String) (transcript : List TranscriptEntry) (data : InboundEventData) :
    (handle_connection api st frames).2 = st ∧
    (handle_connection api initialState frames).2.conversations = [] ∧
    prepare_conversation_context cid transcript =
      prepare_conversation_context cid2 transcript ∧
    handle_update_only st data = ([], st) := by
  refine ⟨?_, ?_, rfl, rfl⟩
  · simp only [handle_connection]
    exact run_frames_state api frames st
  · simp only [handle_connection]
    rw [run_frames_state api frames initialState]
    rfl

/-- C10: on every new connection the first message sent, before any
inbound frame is processed, is the fixed greeting: `response_type`
"response", `response_id` 0, the fixed greeting text, `content_complete`
true and `end_call` false. -/
theorem greeting_sent_first (api : ChatApi) (st : ServerState) (frames : List Frame) :
    (handle_connection api st frames).1.head? = some initial_message ∧
    initial_message.response_type = "response" ∧
    initial_message.response_id = 0 ∧
    initial_message.content = "Hello! I'm your AI assistant. How can I help you today?" ∧
    initial_message.content_complete = true ∧
    initial_message.end_call = false :=
  ⟨rfl, rfl, rfl, rfl, rfl, rfl⟩

/-- C5: the Context Builder's output is exactly one fixed system entry
followed by the transcript entries whose role is `user` or `assistant`,
in the given order, other roles dropped; on the spec's example transcript
the finalized sequence is [system, user hi, assistant hello, user bye]
with no duplicate trailing append. -/
theorem context_builder_shape (call_id : String) (transcript : List TranscriptEntry) :
    prepare_conversation_context call_id transcript =
      systemMessage ::
        transcript.filter (fun entry => entry.role = "user" ∨ entry.role = "assistant") ∧
    finalized_messages
        (prepare_conversation_context "call-1"
          [{ role := "user", content := "hi" }, { role := "assistant", content := "hello" },
           { role := "user", content := "bye" }])
        (latest_user_message
          [{ role := "user", content := "hi" }, { role := "assistant", content := "hello" },
           { role := "user", content := "bye" }]) =
      [systemMessage, { role := "user", content := "hi" },
       { role := "assistant", content := "hello" }, { role := "user", content := "bye" }] := by
  constructor
  · unfold prepare_conversation_context
    congr 1
    induction transcript with
    | nil => rfl
    | cons e rest ih =>
      obtain ⟨r, c⟩ := e
      by_cases h1 : r = "user"
      · subst h1
        simpa [transcriptEntryToMistral] using ih
      · by_cases h2 : r = "assistant"
        · subst h2
          simpa [transcriptEntryToMistral] using ih
        · simpa [transcriptEntryToMistral, h1, h2] using ih
  · decide

/-- C6: when the completion call fails, `call_mistral_model` returns the
fixed apology instead of propagating the error, so the Outbound Response
for the event carries exactly that apology and nothing escapes. -/
theorem completion_failure_fallback (api : ChatApi) (st : ServerState)
    (data : InboundEventData) (hfail : ∀ msgs, api msgs = Except.error ()) :
    (∀ hist m, call_mistral_model api hist m = mistralErrorFallback) ∧
    (handle_response_required api false st data).1 =
      [{ response_type := "response", response_id := data.response_id.getD 0,
         content := mistralErrorFallback, content_complete := true, end_call := false }] := by
  have hc : ∀ hist m, call_mistral_model api hist m = mistralErrorFallback := by
    intro hist m
    unfold call_mistral_model
    rw [hfail]
  refine ⟨hc, ?_⟩
  simp only [handle_response_required, hc]
  rfl

theorem completion_failure_fallback_w :
    (handle_response_required apiFail false initialState exampleEvent).1 =
      [{ response_type := "response", response_id := (7 : Int),
         content := mistralErrorFallback, content_complete := true, end_call := false }] :=
  (completion_failure_fallback apiFail initialState exampleEvent (fun _ => rfl)).2

/-- C7: a frame that is not valid JSON is dropped: processing it sends
nothing and leaves the state unchanged, and a connection trace containing
it behaves exactly as the trace without it — later frames are still
processed. -/
theorem invalid_json_dropped (api : ChatApi) (st : ServerState)
    (front back : List Frame) (frame : Frame) (hbad : frame.payload = none) :
    process_message api st frame = ([], st) ∧
    handle_connection api st (front ++ frame :: back) =
      handle_connection api st (front ++ back) := by
  have hpm : ∀ st2 : ServerState, process_message api st2 frame = ([], st2) := by
    intro st2
    obtain ⟨payload, fault⟩ := frame
    simp only at hbad
    subst hbad
    rfl
  refine ⟨hpm st, ?_⟩
  simp only [handle_connection]
  have hrf : ∀ (l : List Frame) (st2 : ServerState),
      run_frames api st2 (l ++ frame :: back) = run_frames api st2 (l ++ back) := by
    intro l
    induction l with
    | nil =>
      intro st2
      simp only [List.nil_append, run_frames, hpm, List.nil_append]
    | cons g gs ih =>
      intro st2
      simp only [List.cons_append, run_frames, List.append_eq, ih]
  rw [hrf front st]

theorem invalid_json_dropped_w :
    process_message apiOk initialState ⟨none, false⟩ = ([], initialState) ∧
    handle_connection apiOk initialState
        ([⟨some exampleEvent, false⟩] ++ (⟨none, false⟩ : Frame) :: []) =
      handle_connection apiOk initialState ([⟨some exampleEvent, false⟩] ++ []) :=
  invalid_json_dropped apiOk initialState [⟨some exampleEvent, false⟩] [] ⟨none, false⟩ rfl

/-- The loop scanning `reversed(transcript)` computes exactly the spec's
first-user-entry-from-the-end notion. -/
theorem latest_user_eq_firstUserContent (transcript : List TranscriptEntry) :
    latest_user_message transcript = firstUserContent transcript.reverse := by
  unfold latest_user_message
  generalize transcript.reverse = l
  induction l with
  | nil => rfl
  | cons e rest ih =>
    by_cases h : e.role = "user"
    · rw [List.find?_cons_of_pos _ (by simp [h])]
      simp [firstUserContent, h]
    · rw [List.find?_cons_of_neg _ (by simp [h])]
      rw [ih]
      simp [firstUserContent, h]

/-- C4 counterexample: on the transcript [assistant "hello"] the current
user message is the empty string and differs from the context's last
entry's content, yet no guard-append happens — the claimed
"append iff the last entry's content differs" is false because the code
also requires the current user message to be non-empty. -/
theorem guard_append_iff_cex :
    ¬ ((prepare_conversation_context "call-1"
          [{ role := "assistant", content := "hello" }]).getLast?.map
        TranscriptEntry.content ≠
          some (latest_user_message [{ role := "assistant", content := "hello" }]) →
      finalized_messages
          (prepare_conversation_context "call-1" [{ role := "assistant", content := "hello" }])
          (latest_user_message [{ role := "assistant", content := "hello" }]) =
        prepare_conversation_context "call-1" [{ role := "assistant", content := "hello" }] ++
          [{ role := "user",
             content := latest_user_message [{ role := "assistant", content := "hello" }] }]) := by
  decide

/-- C4 (amended): the current user message is the content of the most
recent `user` entry scanning from the end (empty string when none), and
the finalized sequence has the extra trailing `user` entry appended if and
only if the current user message is non-empty AND the content of the
built context's last entry differs from it. -/
theorem guard_append_characterization (call_id : String) (transcript : List TranscriptEntry) :
    latest_user_message transcript = firstUserContent transcript.reverse ∧
    (finalized_messages (prepare_conversation_context call_id transcript)
        (latest_user_message transcript) =
      prepare_conversation_context call_id transcript ++
        [{ role := "user", content := latest_user_message transcript }] ↔
      latest_user_message transcript ≠ "" ∧
        (prepare_conversation_context call_id transcript).getLast?.map
            TranscriptEntry.content ≠ some (latest_user_message transcript)) := by
  refine ⟨latest_user_eq_firstUserContent transcript, ?_⟩
  have hne : prepare_conversation_context call_id transcript ≠ [] := by
    simp [prepare_conversation_context]
  have hcond_iff :
      (latest_user_message transcript ≠ "" ∧
        (prepare_conversation_context call_id transcript = [] ∨
          (prepare_conversation_context call_id transcript).getLast?.map
              TranscriptEntry.content ≠ some (latest_user_message transcript))) ↔
      (latest_user_message transcript ≠ "" ∧
        (prepare_conversation_context call_id transcript).getLast?.map
            TranscriptEntry.content ≠ some (latest_user_message transcript)) := by
    constructor
    · rintro ⟨h1, h2 | h3⟩
      · exact absurd h2 hne
      · exact ⟨h1, h3⟩
    · rintro ⟨h1, h3⟩
      exact ⟨h1, Or.inr h3⟩
  unfold finalized_messages
  by_cases hc : latest_user_message transcript ≠ "" ∧
      (prepare_conversation_context call_id transcript).getLast?.map
          TranscriptEntry.content ≠ some (latest_user_message transcript)
  · rw [if_pos (hcond_iff.mpr hc)]
    exact iff_of_true rfl hc
  · rw [if_neg (fun h => hc (hcond_iff.mp h))]
    refine iff_of_false ?_ hc
    intro h
    have := congrArg List.length h
    simp at this

/-- When the transcript ends with an `assistant` entry, the filtered
context ends with that entry. -/
theorem filterMap_toMistral_getLast (transcript : List TranscriptEntry)
    (e : TranscriptEntry) (hlast : transcript.getLast? = some e)
    (hrole : e.role = "assistant") :
    (transcript.filterMap transcriptEntryToMistral).getLast? =
      some { role := "assistant", content := e.content } := by
  induction transcript with
  | nil => simp at hlast
  | cons a rest ih =>
    cases rest with
    | nil =>
      simp at hlast
      subst hlast
      simp [List.filterMap_cons, transcriptEntryToMistral, hrole]
    | cons b rest2 =>
      rw [List.getLast?_cons_cons] at hlast
      have h2 := ih hlast
      have hne : List.filterMap transcriptEntryToMistral (b :: rest2) ≠ [] := by
        intro h0
        rw [h0] at h2
        simp at h2
      cases hfa : transcriptEntryToMistral a with
      | none => simpa [List.filterMap_cons, hfa] using h2
      | some x =>
        rw [List.filterMap_cons]
        rw [hfa]
        cases hl : List.filterMap transcriptEntryToMistral (b :: rest2) with
        | nil => exact absurd hl hne
        | cons y ys =>
          rw [hl] at h2
          rw [List.getLast?_cons_cons]
          exact h2

/-- When the transcript holds a `user` entry, the built context contains
a `user` entry with the current user message as content. -/
theorem latest_user_mem (transcript : List TranscriptEntry)
    (hne : latest_user_message transcript ≠ "") :
    { role := "user", content := latest_user_message transcript } ∈
      transcript.filterMap transcriptEntryToMistral := by
  unfold latest_user_message at hne ⊢
  cases hf : transcript.reverse.find? (fun entry => entry.role = "user") with
  | none => rw [hf] at hne; simp at hne
  | some e =>
    have hmem : e ∈ transcript.reverse := List.mem_of_find?_eq_some hf
    have hrole : e.role = "user" := by
      have h := List.find?_some hf
      simpa using h
    rw [List.mem_reverse] at hmem
    show { role := "user", content := e.content } ∈
      transcript.filterMap transcriptEntryToMistral
    rw [List.mem_filterMap]
    exact ⟨e, hmem, by simp [transcriptEntryToMistral, hrole]⟩

/-- C8: when the transcript's last entry has role `assistant` and the
current user message is non-empty and differs from that last entry's
content, the sequence submitted to the completion endpoint contains the
current user message twice: once where it sits in the transcript and once
as the extra appended final `user` entry (the guard compares contents,
not roles). -/
theorem duplicate_user_message (call_id : String) (transcript : List TranscriptEntry)
    (lastEntry : TranscriptEntry) (hlast : transcript.getLast? = some lastEntry)
    (hrole : lastEntry.role = "assistant")
    (hne : latest_user_message transcript ≠ "")
    (hdiff : latest_user_message transcript ≠ lastEntry.content) :
    finalized_messages (prepare_conversation_context call_id transcript)
        (latest_user_message transcript) =
      prepare_conversation_context call_id transcript ++
        [{ role := "user", content := latest_user_message transcript }] ∧
    { role := "user", content := latest_user_message transcript } ∈
      prepare_conversation_context call_id transcript ∧
    2 ≤ (finalized_messages (prepare_conversation_context call_id transcript)
          (latest_user_message transcript)).count
        { role := "user", content := latest_user_message transcript } := by
  have hctxlast : (prepare_conversation_context call_id transcript).getLast? =
      some { role := "assistant", content := lastEntry.content } := by
    unfold prepare_conversation_context
    have h := filterMap_toMistral_getLast transcript lastEntry hlast hrole
    cases hl : List.filterMap transcriptEntryToMistral transcript with
    | nil => rw [hl] at h; simp at h
    | cons y ys =>
      rw [hl] at h
      rw [List.getLast?_cons_cons]
      exact h
  have happend : finalized_messages (prepare_conversation_context call_id transcript)
      (latest_user_message transcript) =
      prepare_conversation_context call_id transcript ++
        [{ role := "user", content := latest_user_message transcript }] := by
    unfold finalized_messages
    rw [if_pos]
    refine ⟨hne, Or.inr ?_⟩
    rw [hctxlast]
    intro h
    rw [Option.map_some'] at h
    exact hdiff (Option.some.inj h).symm
  have hmem : { role := "user", content := latest_user_message transcript } ∈
      prepare_conversation_context call_id transcript :=
    List.mem_cons_of_mem _ (latest_user_mem transcript hne)
  refine ⟨happend, hmem, ?_⟩
  rw [happend, List.count_append]
  have h1 : 1 ≤ (prepare_conversation_context call_id transcript).count
      { role := "user", content := latest_user_message transcript } :=
    List.count_pos_iff.mpr hmem
  have h2 : ([{ role := "user", content := latest_user_message transcript }] :
      List TranscriptEntry).count
        { role := "user", content := latest_user_message transcript } = 1 := by
    simp
  omega

theorem duplicate_user_message_w :
    finalized_messages
        (prepare_conversation_context "call-1"
          [{ role := "user", content := "hi" }, { role := "assistant", content := "hello" }])
        (latest_user_message
          [{ role := "user", content := "hi" }, { role := "assistant", content := "hello" }]) =
      prepare_conversation_context "call-1"
          [{ role := "user", content := "hi" }, { role := "assistant", content := "hello" }] ++
        [{ role := "user",
           content := latest_user_message
             [{ role := "user", content := "hi" },
              { role := "assistant", content := "hello" }] }] ∧
    { role := "user",
      content := latest_user_message
        [{ role := "user", content := "hi" }, { role := "assistant", content := "hello" }] } ∈
      prepare_conversation_context "call-1"
        [{ role := "user", content := "hi" }, { role := "assistant", content := "hello" }] ∧
    2 ≤ (finalized_messages
          (prepare_conversation_context "call-1"
            [{ role := "user", content := "hi" }, { role := "assistant", content := "hello" }])
          (latest_user_message
            [{ role := "user", content := "hi" },
             { role := "assistant", content := "hello" }])).count
        { role := "user",
          content := latest_user_message
            [{ role := "user", content := "hi" },
             { role := "assistant", content := "hello" }] } :=
  duplicate_user_message "call-1"
    [{ role := "user", content := "hi" }, { role := "assistant", content := "hello" }]
    { role := "assistant", content := "hello" } (by decide) rfl (by decide) (by decide)
